import Mathlib

/-!
Shallow embedding of the brasstower particle solver
(`src/brasstower/particlesolver.cuh`, `src/brasstower/main.cu`) and proofs
about its documented behaviour.

CUDA `float` values are embedded as rationals (`ℚ`); `float3` as `Vec3`.
Device arrays are embedded as total functions from indices; a kernel launch
over `numParticles` threads becomes a pointwise update guarded by
`i < numParticles`.  Kernels whose bodies live in headers that are not part
of the repository snapshot (`solverkernel/util.cuh`, `grid.cuh`,
`fluid.cuh`, ...) are either modelled from the specification (marked
`Modelled from the spec:`) or taken as abstract state transformers.
-/

namespace BrassTower

/-- Embedding of CUDA `float3`: a 3-component vector of rationals. -/
structure Vec3 where
  x : ℚ
  y : ℚ
  z : ℚ
deriving DecidableEq, Repr

instance : Add Vec3 := ⟨fun a b => ⟨a.x + b.x, a.y + b.y, a.z + b.z⟩⟩

instance : Sub Vec3 := ⟨fun a b => ⟨a.x - b.x, a.y - b.y, a.z - b.z⟩⟩

instance : Zero Vec3 := ⟨⟨0, 0, 0⟩⟩

@[simp] theorem Vec3.add_def (a b : Vec3) :
    a + b = ⟨a.x + b.x, a.y + b.y, a.z + b.z⟩ := rfl

@[simp] theorem Vec3.sub_def (a b : Vec3) :
    a - b = ⟨a.x - b.x, a.y - b.y, a.z - b.z⟩ := rfl

@[simp] theorem Vec3.zero_x : (0 : Vec3).x = 0 := rfl

@[simp] theorem Vec3.zero_y : (0 : Vec3).y = 0 := rfl

@[simp] theorem Vec3.zero_z : (0 : Vec3).z = 0 := rfl

/-- Scalar multiplication `v * c` (componentwise), as in helper_math. -/
def Vec3.scale (v : Vec3) (c : ℚ) : Vec3 := ⟨v.x * c, v.y * c, v.z * c⟩

/-- `length2` from helper_math: squared Euclidean norm of a `float3`. -/
def length2 (v : Vec3) : ℚ := v.x * v.x + v.y * v.y + v.z * v.z

/-- Gravity constant `make_float3(0.0f, -9.8f, 0.0f)` of `applyForces`. -/
def gravity : Vec3 := ⟨0, -49/5, 0⟩

/-- The per-particle device arrays owned by `ParticleSolver`, together with
the live-particle counter `scene->numParticles` that every kernel launch
reads its bound from. -/
structure PState where
  positions : Nat → Vec3
  newPositions : Nat → Vec3
  tempFloat3 : Nat → Vec3
  velocities : Nat → Vec3
  masses : Nat → ℚ
  invScaledMasses : Nat → ℚ
  phases : Nat → Int
  numParticles : Nat

/-- `applyForces` kernel (particlesolver.cuh, lines 16-25):
`velocities[i] += make_float3(0, -9.8, 0) * deltaTime` for `i < numParticles`.
(The `invMass` argument is unused by the kernel body.) -/
def applyForces (deltaTime : ℚ) (st : PState) : PState :=
  { st with velocities := fun i =>
      if i < st.numParticles then st.velocities i + gravity.scale deltaTime
      else st.velocities i }

/-- `predictPositions` kernel (lines 27-37):
`newPositions[i] = positions[i] + velocities[i] * deltaTime`. -/
def predictPositions (deltaTime : ℚ) (st : PState) : PState :=
  { st with newPositions := fun i =>
      if i < st.numParticles then st.positions i + (st.velocities i).scale deltaTime
      else st.newPositions i }

/-- `updateVelocity` kernel (lines 39-49):
`velocities[i] = (newPositions[i] - positions[i]) * invDeltaTime`. -/
def updateVelocity (invDeltaTime : ℚ) (st : PState) : PState :=
  { st with velocities := fun i =>
      if i < st.numParticles then (st.newPositions i - st.positions i).scale invDeltaTime
      else st.velocities i }

/-- `computeInvScaledMasses` kernel (lines 52-66):
`invScaledMasses[i] = 1 / (pow(e, -k * positions[i].y) * masses[i])`.
The float `pow(2.7182818284f, ·)` is transcendental, so it is taken as an
abstract function argument `expFn`; nothing proved here depends on its
values. -/
def computeInvScaledMasses (expFn : ℚ → ℚ) (k : ℚ) (st : PState) : PState :=
  { st with invScaledMasses := fun i =>
      if i < st.numParticles then 1 / (expFn (-k * (st.positions i).y) * st.masses i)
      else st.invScaledMasses i }

/-- `updatePositions` kernel (lines 68-84): the position-commit pass.
`positions[i] = (dist2 >= threshold^2 || phases[i] < 0) ? newX : x` where
`dist2 = length2(newPositions[i] - positions[i])`. -/
def updatePositions (threshold : ℚ) (st : PState) : PState :=
  { st with positions := fun i =>
      if i < st.numParticles then
        let x := st.positions i
        let newX := st.newPositions i
        let dist2 := length2 (newX - x)
        if dist2 ≥ threshold * threshold ∨ st.phases i < 0 then newX else x
      else st.positions i }

/-- `ParticleSolver::getParticlePosition` (lines 165-173): out-of-range
indices yield `glm::vec3(0.0f)`; otherwise the committed position is read
back. -/
def getParticlePosition (st : PState) (particleIndex : Int) : Vec3 :=
  if particleIndex < 0 ∨ particleIndex ≥ (st.numParticles : Int) then 0
  else st.positions particleIndex.toNat

/-- `ParticleSolver::setParticle` (lines 175-180): out-of-range indices are
ignored; otherwise exactly `positions[particleIndex]` and
`velocities[particleIndex]` are overwritten (via two one-element
`setDevArr_float3` launches, modelled from the spec as single-element
writes). -/
def setParticle (st : PState) (particleIndex : Int) (position velocity : Vec3) : PState :=
  if particleIndex < 0 ∨ particleIndex ≥ (st.numParticles : Int) then st
  else
    { st with
      positions := fun i =>
        if i = particleIndex.toNat then position else st.positions i,
      velocities := fun i =>
        if i = particleIndex.toNat then velocity else st.velocities i }

/-- A collision plane of the scene: `Plane(origin, normal)` (scene.h). -/
structure Plane where
  origin : Vec3
  normal : Vec3

/-- The device kernels of `ParticleSolver::update` whose bodies live in
headers outside the snapshot (`solverkernel/grid.cuh`, `fluid.cuh`,
`particleplane.cuh`, `shapematching.cuh`).  They are taken as abstract
state transformers; the arguments kept here are the ones the driver
threads through that matter to the proofs (the plane for the per-plane
launches, the time step for the velocity-integrating fluid kernels). -/
structure DeviceKernels where
  planeStabilize : Plane → PState → PState
  particlePlaneCollision : Plane → PState → PState
  updateGrid : PState → PState
  fluidLambda : PState → PState
  fluidPosition : PState → PState
  shapeMatching : PState → PState
  fluidOmega : PState → PState
  fluidVorticity : ℚ → PState → PState
  fluidNormal : PState → PState
  fluidAkinciTension : ℚ → PState → PState
  fluidXSph : PState → PState

/-- `std::swap(devTempFloat3, devNewPositions)` (line 462). -/
def swapNewTemp (st : PState) : PState :=
  { st with newPositions := st.tempFloat3, tempFloat3 := st.newPositions }

/-- `std::swap(devVelocities, devTempFloat3)` (lines 547, 564). -/
def swapVelTemp (st : PState) : PState :=
  { st with velocities := st.tempFloat3, tempFloat3 := st.velocities }

/-- The remaining host-side parameters `update` reads: the abstract float
exponential of `computeInvScaledMasses`, the constants
`MASS_SCALING_CONSTANT` and `PARTICLE_SLEEPING_EPSILON` (defined in headers
outside the snapshot), the scene's plane list and rigid-body count. -/
structure SolverParams where
  expFn : ℚ → ℚ
  massScalingConstant : ℚ
  particleSleepingEpsilon : ℚ
  planes : List Plane
  numRigidBodies : Nat

/-- One pass of the stabilize loop body (lines 380-391): launch
`planeStabilize` for every plane of the scene, in order. -/
def stabilizePlanes (K : DeviceKernels) (planes : List Plane) (st : PState) : PState :=
  planes.foldl (fun s p => K.planeStabilize p s) st

/-- Per-plane `particlePlaneCollisionConstraint` launches (lines 403-411). -/
def collidePlanes (K : DeviceKernels) (planes : List Plane) (st : PState) : PState :=
  planes.foldl (fun s p => K.particlePlaneCollision p s) st

/-- One inner constraint iteration (lines 400-473): plane collisions for
every plane, `fluidLambda`, `fluidPosition` into the scratch buffer
followed by the swap, then `shapeMatchingAlphaOne` only when
`scene->numRigidBodies > 0`. -/
def innerIteration (K : DeviceKernels) (planes : List Plane) (numRigidBodies : Nat)
    (st : PState) : PState :=
  let st1 := collidePlanes K planes st
  let st2 := K.fluidLambda st1
  let st3 := swapNewTemp (K.fluidPosition st2)
  if 0 < numRigidBodies then K.shapeMatching st3 else st3

/-- The projection loop (lines 395-474): one grid-update iteration, each
containing the grid rebuild followed by two inner constraint iterations. -/
def projectionLoop (K : DeviceKernels) (planes : List Plane) (numRigidBodies : Nat)
    (st : PState) : PState :=
  (List.range 1).foldl
    (fun s _ =>
      (List.range 2).foldl (fun s2 _ => innerIteration K planes numRigidBodies s2)
        (K.updateGrid s))
    st

/-- The start of a substep (lines 354-363): `applyForces`, then — when the
picked particle id is in `[0, scene->numParticles)` — pin it via
`setParticle(pickedParticleId, pickedParticlePosition, vec3(0))`. -/
def substepPhase1 (subDeltaTime : ℚ) (pickedParticleId : Int)
    (pickedParticlePosition : Vec3) (st : PState) : PState :=
  let st1 := applyForces subDeltaTime st
  if 0 ≤ pickedParticleId ∧ pickedParticleId < (st1.numParticles : Int) then
    setParticle st1 pickedParticleId pickedParticlePosition 0
  else st1

/-- One substep of `ParticleSolver::update` (body of the loop at lines
352-565). -/
def substep (K : DeviceKernels) (P : SolverParams) (deltaTime subDeltaTime : ℚ)
    (useAkinciCohesionTension : Bool) (pickedParticleId : Int)
    (pickedParticlePosition : Vec3) (st : PState) : PState :=
  let st1 := substepPhase1 subDeltaTime pickedParticleId pickedParticlePosition st
  let st2 := predictPositions subDeltaTime st1
  let st3 := computeInvScaledMasses P.expFn P.massScalingConstant st2
  let st4 := (List.range 2).foldl (fun s _ => stabilizePlanes K P.planes s) st3
  let st5 := projectionLoop K P.planes P.numRigidBodies st4
  let st6 := updateVelocity (1 / subDeltaTime) st5
  let st7 := updatePositions P.particleSleepingEpsilon st6
  let st8 := K.fluidOmega st7
  let st9 := K.fluidVorticity subDeltaTime st8
  let st10 := if useAkinciCohesionTension then
      swapVelTemp (K.fluidAkinciTension deltaTime (K.fluidNormal st9))
    else st9
  swapVelTemp (K.fluidXSph st10)

/-- The substep loop of `update` (lines 352-565): `numSubTimeStep`
iterations of `substep` at `subDeltaTime = deltaTime / numSubTimeStep`,
with the cohesion flag `true` as hard-coded at line 350. -/
def substepLoop (K : DeviceKernels) (P : SolverParams) (numSubTimeStep : Nat)
    (deltaTime : ℚ) (pickedParticleId : Int) (pickedParticlePosition : Vec3)
    (st : PState) : PState :=
  (List.range numSubTimeStep).foldl
    (fun s _ => substep K P deltaTime (deltaTime / (numSubTimeStep : ℚ)) true
      pickedParticleId pickedParticlePosition s) st

/-- `ParticleSolver::update` (lines 339-573): the substep loop followed by
the picked-particle fix-up (lines 567-572) that restores the solved
position and installs `pickedParticleVelocity`. -/
def update (K : DeviceKernels) (P : SolverParams) (numSubTimeStep : Nat)
    (deltaTime : ℚ) (pickedParticleId : Int)
    (pickedParticlePosition pickedParticleVelocity : Vec3) (st : PState) : PState :=
  let st1 := substepLoop K P numSubTimeStep deltaTime pickedParticleId
    pickedParticlePosition st
  if 0 ≤ pickedParticleId ∧ pickedParticleId < (st1.numParticles : Int) then
    setParticle st1 pickedParticleId (getParticlePosition st1 pickedParticleId)
      pickedParticleVelocity
  else st1

/-- All abstract kernels leave the live-particle counter alone — true of
every device kernel, which only writes array contents. -/
def KernelsPreserve (K : DeviceKernels) : Prop :=
  (∀ p st, (K.planeStabilize p st).numParticles = st.numParticles) ∧
  (∀ p st, (K.particlePlaneCollision p st).numParticles = st.numParticles) ∧
  (∀ st, (K.updateGrid st).numParticles = st.numParticles) ∧
  (∀ st, (K.fluidLambda st).numParticles = st.numParticles) ∧
  (∀ st, (K.fluidPosition st).numParticles = st.numParticles) ∧
  (∀ st, (K.shapeMatching st).numParticles = st.numParticles) ∧
  (∀ st, (K.fluidOmega st).numParticles = st.numParticles) ∧
  (∀ dt st, (K.fluidVorticity dt st).numParticles = st.numParticles) ∧
  (∀ st, (K.fluidNormal st).numParticles = st.numParticles) ∧
  (∀ dt st, (K.fluidAkinciTension dt st).numParticles = st.numParticles) ∧
  (∀ st, (K.fluidXSph st).numParticles = st.numParticles)

/- ## Pass-trace model of the driver

For the ordering claims, the driver is modelled a second time as the list
of kernel launches (and buffer swaps) it issues, each recorded with the
argument that matters to the claims: the time step handed to the kernels
that integrate into velocity, and the index of the plane handed to the
per-plane launches. -/

/-- One recorded kernel launch / buffer swap of `ParticleSolver::update`. -/
inductive Pass where
  | applyForcesP (dt : ℚ)
  | setPickedParticleP (id : Int)
  | predictPositionsP (dt : ℚ)
  | computeInvScaledMassesP
  | planeStabilizeP (planeIdx : Nat)
  | updateGridP
  | particlePlaneCollisionP (planeIdx : Nat)
  | fluidLambdaP
  | fluidPositionP
  | swapNewPositionsP
  | shapeMatchingP
  | updateVelocityP (invDt : ℚ)
  | updatePositionsP
  | fluidOmegaP
  | fluidVorticityP (dt : ℚ)
  | fluidNormalP
  | fluidAkinciTensionP (dt : ℚ)
  | swapVelocitiesP
  | fluidXSphP
  | fixPickedParticleP (id : Int)
deriving DecidableEq, Repr

/-- Launch trace of one substep (loop body, lines 352-565), with the loops
written exactly as in the source: the stabilize pass is a 2-iteration loop
over all planes, the projection loop is 1 grid iteration containing 2 inner
constraint iterations. -/
def substepTrace (numPlanes numRigidBodies : Nat) (useAkinci : Bool)
    (pickedOk : Bool) (pickedId : Int) (deltaTime subDeltaTime : ℚ) : List Pass :=
  [Pass.applyForcesP subDeltaTime]
  ++ (if pickedOk then [Pass.setPickedParticleP pickedId] else [])
  ++ [Pass.predictPositionsP subDeltaTime, Pass.computeInvScaledMassesP]
  ++ (List.replicate 2 ((List.range numPlanes).map Pass.planeStabilizeP)).flatten
  ++ (List.replicate 1
       ([Pass.updateGridP]
        ++ (List.replicate 2
             ((List.range numPlanes).map Pass.particlePlaneCollisionP
              ++ [Pass.fluidLambdaP, Pass.fluidPositionP, Pass.swapNewPositionsP]
              ++ (if 0 < numRigidBodies then [Pass.shapeMatchingP] else []))).flatten)).flatten
  ++ [Pass.updateVelocityP (1 / subDeltaTime), Pass.updatePositionsP,
      Pass.fluidOmegaP, Pass.fluidVorticityP subDeltaTime]
  ++ (if useAkinci then
        [Pass.fluidNormalP, Pass.fluidAkinciTensionP deltaTime, Pass.swapVelocitiesP]
      else [])
  ++ [Pass.fluidXSphP, Pass.swapVelocitiesP]

/-- Launch trace of a whole `update` call: `numSubTimeStep` copies of the
substep trace (with the cohesion flag `true`, as hard-coded in the source),
then the picked-particle fix-up when the id is in range. -/
def updateTrace (numSubTimeStep : Nat) (deltaTime : ℚ)
    (numPlanes numRigidBodies numParticles : Nat) (pickedId : Int) : List Pass :=
  let subDeltaTime := deltaTime / (numSubTimeStep : ℚ)
  let pickedOk := decide (0 ≤ pickedId ∧ pickedId < (numParticles : Int))
  (List.replicate numSubTimeStep
    (substepTrace numPlanes numRigidBodies true pickedOk pickedId deltaTime subDeltaTime)).flatten
  ++ (if pickedOk then [Pass.fixPickedParticleP pickedId] else [])

/- ## Uniform-grid reset pass -/

/-- Modelled from the spec: `setDevArr_int` (solverkernel/util.cuh, outside
the snapshot) sets the first `numValues` entries of a device int array to
`value` and leaves the rest alone. -/
def setDevArr_int (arr : Nat → Int) (value : Int) (numValues : Nat) : Nat → Int :=
  fun i => if i < numValues then value else arr i

/-- Grid dimensions fixed in the constructor: `gridSize(make_int3(512))`
(line 92). -/
def gridSize : Nat × Nat × Nat := (512, 512, 512)

/-- Total number of grid cells `G = Gx*Gy*Gz`; this is also the allocated
size of `devCellStart` (line 129). -/
def gridCellCount : Nat := gridSize.1 * gridSize.2.1 * gridSize.2.2

/-- The reset pass at the start of `ParticleSolver::updateGrid` (line 310):
`setDevArr_int(devCellStart, -1, scene->numMaxParticles)`.  Note the count
argument is the particle capacity, not the number of grid cells. -/
def updateGridResetPass (cellStart : Nat → Int) (numMaxParticles : Nat) : Nat → Int :=
  setDevArr_int cellStart (-1) numMaxParticles

/- ## Host-side append operations -/

/-- The two error kinds the append path can raise (both thrown as
`std::exception` in the source, distinguished by their message). -/
inductive SolverError where
  | CapacityExceeded
  | OffCenterReference
deriving DecidableEq, Repr

/-- Modelled from the spec: the `setDevArr_*` fill kernels of
solverkernel/util.cuh (outside the snapshot) write `value` into the `n`
entries starting at `offset` of a device array and leave the rest alone. -/
def writeRangeConst {α : Type} (arr : Nat → α) (offset n : Nat) (value : α) : Nat → α :=
  fun i => if offset ≤ i ∧ i < offset + n then value else arr i

/-- `cudaMemcpy(dev + offset, host, k * sizeof ..)`: copy a host list into
the device array starting at `offset`. -/
def writeRangeList {α : Type} (arr : Nat → α) (offset : Nat) (vals : List α)
    (dflt : α) : Nat → α :=
  fun i =>
    if offset ≤ i ∧ i < offset + vals.length then vals.getD (i - offset) dflt
    else arr i

/-- Modelled from the spec: `setDevArr_counterIncrement` (util.cuh, outside
the snapshot) gives each of the `n` entries starting at `offset` a fresh
value drawn by atomically adding the increment (1 here) to the device
counter, so the entries receive `counter, counter+1, ..., counter+n-1` in
some order (one deterministic serialization is used) and the counter ends
at `counter + n`. -/
def setDevArr_counterIncrement (arr : Nat → Int) (counter : Int) (offset n : Nat) :
    (Nat → Int) × Int :=
  (fun i =>
     if offset ≤ i ∧ i < offset + n then counter + ((i : Int) - (offset : Int))
     else arr i,
   counter + n)

/-- The host-visible solver state the append operations touch: the device
arrays they write, the phase counter, and the `Scene` counters. -/
structure SolverArrays where
  positions : Nat → Vec3
  masses : Nat → ℚ
  invMasses : Nat → ℚ
  phases : Nat → Int
  rigidBodyParticleIdRange : Nat → Nat × Nat
  rigidBodyInitialPositions : Nat → Vec3
  solidPhaseCounter : Int
  numParticles : Nat
  numRigidBodies : Nat
  numMaxParticles : Nat
  numMaxRigidBodies : Nat

/-- `ParticleSolver::addGranulars` (lines 182-213).  Throws (here: returns
the untouched state with the error) when
`numParticles + k >= numMaxParticles`; otherwise appends positions, masses,
inverse masses, counter-incremented phases, and bumps `numParticles`. -/
def addGranulars (st : SolverArrays) (positions : List Vec3) (massPerParticle : ℚ) :
    SolverArrays × Option SolverError :=
  let numParticles := positions.length
  if st.numParticles + numParticles ≥ st.numMaxParticles then
    (st, some SolverError.CapacityExceeded)
  else
    let pc := setDevArr_counterIncrement st.phases st.solidPhaseCounter
      st.numParticles numParticles
    ({ st with
        positions := writeRangeList st.positions st.numParticles positions 0,
        masses := writeRangeConst st.masses st.numParticles numParticles massPerParticle,
        invMasses := writeRangeConst st.invMasses st.numParticles numParticles
          (1 / massPerParticle),
        phases := pc.1,
        solidPhaseCounter := pc.2,
        numParticles := st.numParticles + numParticles }, none)

/-- `glm::length(cm) >= 1e-5f` threshold of `addRigidBody`. -/
def offCenterThreshold : ℚ := 1 / 100000

/-- The centroid loop of `addRigidBody` (lines 230-232):
`cm = (Σ position) / size`. -/
def rigidCentroid (refPositions : List Vec3) : Vec3 :=
  (refPositions.foldl (fun a b => a + b) 0).scale (1 / (refPositions.length : ℚ))

/-- `ParticleSolver::addRigidBody` (lines 215-274).  Checks, in source
order: particle capacity, rigid-body capacity (both with `>=`), then the
centroid of the reference positions (`cm = Σ ref / size`, rejected when
`glm::length(cm) >= 1e-5f`, embedded as the equivalent comparison of
squared norms).  Only after all checks pass are the arrays written: body
particles share the current phase-counter value, the body's id range is
recorded, and the counter is incremented by one. -/
def addRigidBody (st : SolverArrays)
    (initialPositions initialPositions_CM_Origin : List Vec3)
    (massPerParticle : ℚ) : SolverArrays × Option SolverError :=
  let numParticles := initialPositions.length
  if st.numParticles + numParticles ≥ st.numMaxParticles then
    (st, some SolverError.CapacityExceeded)
  else if st.numRigidBodies + 1 ≥ st.numMaxRigidBodies then
    (st, some SolverError.CapacityExceeded)
  else
    let cm := rigidCentroid initialPositions_CM_Origin
    if length2 cm ≥ offCenterThreshold * offCenterThreshold then
      (st, some SolverError.OffCenterReference)
    else
      ({ st with
          positions := writeRangeList st.positions st.numParticles initialPositions 0,
          rigidBodyInitialPositions := writeRangeList st.rigidBodyInitialPositions
            st.numParticles initialPositions_CM_Origin 0,
          masses := writeRangeConst st.masses st.numParticles numParticles
            massPerParticle,
          invMasses := writeRangeConst st.invMasses st.numParticles numParticles
            (1 / massPerParticle),
          phases := writeRangeConst st.phases st.numParticles numParticles
            st.solidPhaseCounter,
          rigidBodyParticleIdRange := fun b =>
            if b = st.numRigidBodies then (st.numParticles, st.numParticles + numParticles)
            else st.rigidBodyParticleIdRange b,
          solidPhaseCounter := st.solidPhaseCounter + 1,
          numParticles := st.numParticles + numParticles,
          numRigidBodies := st.numRigidBodies + 1 }, none)

/-- `ParticleSolver::addFluids` (lines 276-306): same capacity check; fluid
phase is always −1. -/
def addFluids (st : SolverArrays) (positions : List Vec3) (massPerParticle : ℚ) :
    SolverArrays × Option SolverError :=
  let numParticles := positions.length
  if st.numParticles + numParticles ≥ st.numMaxParticles then
    (st, some SolverError.CapacityExceeded)
  else
    ({ st with
        positions := writeRangeList st.positions st.numParticles positions 0,
        masses := writeRangeConst st.masses st.numParticles numParticles massPerParticle,
        invMasses := writeRangeConst st.invMasses st.numParticles numParticles
          (1 / massPerParticle),
        phases := writeRangeConst st.phases st.numParticles numParticles (-1),
        numParticles := st.numParticles + numParticles }, none)

/-- The host state right after the `ParticleSolver` constructor's
allocations (lines 88-135), before any scene append: no live particles or
bodies, and `cudaMemset(devSolidPhaseCounter, 1, sizeof(int))` fills every
byte of the counter with `0x01`, so it starts at `0x01010101 = 16843009`.
Uninitialized array contents are represented by zeros. -/
def initArrays (numMaxParticles numMaxRigidBodies : Nat) : SolverArrays :=
  { positions := fun _ => 0
    masses := fun _ => 0
    invMasses := fun _ => 0
    phases := fun _ => 0
    rigidBodyParticleIdRange := fun _ => (0, 0)
    rigidBodyInitialPositions := fun _ => 0
    solidPhaseCounter := 16843009
    numParticles := 0
    numRigidBodies := 0
    numMaxParticles := numMaxParticles
    numMaxRigidBodies := numMaxRigidBodies }

/-- One append call, as issued by the constructor loops (lines 137-150) or
by client code (main.cu line 114). -/
inductive AppendOp where
  | granulars (positions : List Vec3) (mass : ℚ)
  | rigid (initialPositions refPositions : List Vec3) (mass : ℚ)
  | fluids (positions : List Vec3) (mass : ℚ)

/-- The matter kind a particle was appended as (bookkeeping for stating
the phase-partition invariant; `rigidMember b` names the body index the
particle belongs to). -/
inductive PKind where
  | fluid
  | granular
  | rigidMember (body : Nat)
deriving DecidableEq, Repr

/-- Dispatch one append op to the corresponding solver method. -/
def applyOp (st : SolverArrays) (op : AppendOp) : SolverArrays × Option SolverError :=
  match op with
  | AppendOp.granulars ps m => addGranulars st ps m
  | AppendOp.rigid ps refs m => addRigidBody st ps refs m
  | AppendOp.fluids ps m => addFluids st ps m

/-- The kind assigned to the particles an op appends. -/
def opKind (st : SolverArrays) (op : AppendOp) : PKind :=
  match op with
  | AppendOp.granulars .. => PKind.granular
  | AppendOp.rigid .. => PKind.rigidMember st.numRigidBodies
  | AppendOp.fluids .. => PKind.fluid

/-- Extend the kind bookkeeping with the particles a successful op added. -/
def kindAfter (st st' : SolverArrays) (op : AppendOp) (km : Nat → Option PKind) :
    Nat → Option PKind :=
  fun i =>
    if st.numParticles ≤ i ∧ i < st'.numParticles then some (opKind st op) else km i

/-- Replay a sequence of append calls; `none` when any call fails. -/
def replay : SolverArrays → (Nat → Option PKind) → List AppendOp →
    Option (SolverArrays × (Nat → Option PKind))
  | st, km, [] => some (st, km)
  | st, km, op :: ops =>
    match applyOp st op with
    | (st', none) => replay st' (kindAfter st st' op km) ops
    | (_, some _) => none

/-- The phase-partition invariant of the spec (§3 Invariants): fluids have
phase −1; granular phases are fresh, positive and pairwise distinct; all
particles of one rigid body share one positive phase no other body and no
granular uses; live solid phases sit strictly below the phase counter,
which stays positive. -/
def PhaseInv (st : SolverArrays) (km : Nat → Option PKind) : Prop :=
  0 < st.solidPhaseCounter ∧
  (∀ i, (km i).isSome → i < st.numParticles) ∧
  (∀ i, i < st.numParticles → (km i).isSome) ∧
  (∀ i b, km i = some (PKind.rigidMember b) → b < st.numRigidBodies) ∧
  (∀ i, km i = some PKind.fluid → st.phases i = -1) ∧
  (∀ i, (km i).isSome → km i ≠ some PKind.fluid →
    0 < st.phases i ∧ st.phases i < st.solidPhaseCounter) ∧
  (∀ i j, km i = some PKind.granular → km j = some PKind.granular → i ≠ j →
    st.phases i ≠ st.phases j) ∧
  (∀ i j b, km i = some (PKind.rigidMember b) → km j = some (PKind.rigidMember b) →
    st.phases i = st.phases j) ∧
  (∀ i j b b2, km i = some (PKind.rigidMember b) → km j = some (PKind.rigidMember b2) →
    b ≠ b2 → st.phases i ≠ st.phases j) ∧
  (∀ i j b, km i = some PKind.granular → km j = some (PKind.rigidMember b) →
    st.phases i ≠ st.phases j)

/- ## Theorems -/

/-- A concrete one-fluid-particle state used to instantiate theorems with
hypotheses. -/
def stW : PState :=
  { positions := fun _ => ⟨0, 0, 0⟩
    newPositions := fun _ => ⟨1, 0, 0⟩
    tempFloat3 := fun _ => 0
    velocities := fun _ => 0
    masses := fun _ => 1
    invScaledMasses := fun _ => 1
    phases := fun _ => -1
    numParticles := 1 }

/-- C1: refuted — the reset pass of `updateGrid` writes −1 only to
`cellStart[0 .. numMaxParticles)`, not to all `G = Gx·Gy·Gz` cells of the
grid it was allocated for.  With the simple scene's capacity
`numMaxParticles = 50000` (main.cu, line 94), cell index 50000 lies inside
the grid (`G = 512³`) yet a stale entry 7 there survives the reset,
contradicting "no cell-start entry from a previous rebuild survives". -/
theorem C1_reset_leaves_stale_cells :
    50000 < gridCellCount ∧
    updateGridResetPass (fun _ => 7) 50000 50000 = 7 ∧
    (7 : Int) ≠ -1 :=
  ⟨by decide, rfl, by decide⟩

/-- C5: for every live particle the commit pass sets
`position[i] := predicted[i]` iff `phase[i] < 0` or the squared move is at
least the sleep threshold squared, leaves `position[i]` unchanged
otherwise, writes nothing at dead indices, and modifies no other particle
field. -/
theorem C5_position_commit (st : PState) (threshold : ℚ) (i : Nat)
    (hi : i < st.numParticles) :
    ((updatePositions threshold st).positions i =
      if st.phases i < 0 ∨
          length2 (st.newPositions i - st.positions i) ≥ threshold * threshold then
        st.newPositions i
      else st.positions i) ∧
    (∀ j, st.numParticles ≤ j →
      (updatePositions threshold st).positions j = st.positions j) ∧
    (updatePositions threshold st).newPositions = st.newPositions ∧
    (updatePositions threshold st).tempFloat3 = st.tempFloat3 ∧
    (updatePositions threshold st).velocities = st.velocities ∧
    (updatePositions threshold st).masses = st.masses ∧
    (updatePositions threshold st).invScaledMasses = st.invScaledMasses ∧
    (updatePositions threshold st).phases = st.phases ∧
    (updatePositions threshold st).numParticles = st.numParticles := by
  refine ⟨?_, ?_, rfl, rfl, rfl, rfl, rfl, rfl, rfl⟩
  · show (if i < st.numParticles then _ else st.positions i) = _
    rw [if_pos hi]
    simp only [or_comm]
  · intro j hj
    show (if j < st.numParticles then _ else st.positions j) = _
    rw [if_neg (Nat.not_lt.mpr hj)]

/-- Witness for C5 at a concrete fluid particle. -/
theorem C5_position_commit_witness :
    0 < stW.numParticles ∧
    ((updatePositions (1/10) stW).positions 0 =
      if stW.phases 0 < 0 ∨
          length2 (stW.newPositions 0 - stW.positions 0) ≥ (1/10) * (1/10) then
        stW.newPositions 0
      else stW.positions 0) :=
  ⟨by decide, (C5_position_commit stW (1/10) 0 (by decide)).1⟩

/-- C6: `updateVelocity` is launched with `1 / subDeltaTime` before the
commit pass, and after both passes every live particle's velocity equals
`(predicted − position) / δt`, `position` being the committed position from
before the commit pass. -/
theorem C6_velocity_reconstruction (st : PState) (threshold dt : ℚ) (i : Nat)
    (hi : i < st.numParticles) :
    (updatePositions threshold (updateVelocity (1 / dt) st)).velocities i =
      ⟨(st.newPositions i - st.positions i).x / dt,
       (st.newPositions i - st.positions i).y / dt,
       (st.newPositions i - st.positions i).z / dt⟩ := by
  show (updateVelocity (1 / dt) st).velocities i = _
  show (if i < st.numParticles then (st.newPositions i - st.positions i).scale (1 / dt)
      else st.velocities i) = _
  rw [if_pos hi]
  simp [Vec3.scale, mul_one_div, div_eq_mul_inv]

/-- Witness for C6 at a concrete particle. -/
theorem C6_velocity_reconstruction_witness :
    0 < stW.numParticles ∧
    (updatePositions (1/10) (updateVelocity (1 / (1/60)) stW)).velocities 0 =
      ⟨(stW.newPositions 0 - stW.positions 0).x / (1/60),
       (stW.newPositions 0 - stW.positions 0).y / (1/60),
       (stW.newPositions 0 - stW.positions 0).z / (1/60)⟩ :=
  ⟨by decide, C6_velocity_reconstruction stW (1/10) (1/60) 0 (by decide)⟩

/-- C10: an out-of-range index makes `getParticlePosition` return the zero
vector and `setParticle` a no-op; an in-range `setParticle` writes exactly
that particle's position and velocity and changes nothing else.  Both
accessors are total. -/
theorem C10_accessors (st : PState) (idx : Int) (p v : Vec3) :
    (¬ (0 ≤ idx ∧ idx < (st.numParticles : Int)) →
      getParticlePosition st idx = 0 ∧ setParticle st idx p v = st) ∧
    (0 ≤ idx ∧ idx < (st.numParticles : Int) →
      (setParticle st idx p v).positions idx.toNat = p ∧
      (setParticle st idx p v).velocities idx.toNat = v ∧
      (∀ j, j ≠ idx.toNat →
        (setParticle st idx p v).positions j = st.positions j ∧
        (setParticle st idx p v).velocities j = st.velocities j) ∧
      (setParticle st idx p v).newPositions = st.newPositions ∧
      (setParticle st idx p v).tempFloat3 = st.tempFloat3 ∧
      (setParticle st idx p v).masses = st.masses ∧
      (setParticle st idx p v).invScaledMasses = st.invScaledMasses ∧
      (setParticle st idx p v).phases = st.phases ∧
      (setParticle st idx p v).numParticles = st.numParticles) := by
  constructor
  · intro h
    have h2 : idx < 0 ∨ idx ≥ (st.numParticles : Int) := by omega
    constructor
    · show (if idx < 0 ∨ idx ≥ (st.numParticles : Int) then (0 : Vec3)
          else st.positions idx.toNat) = 0
      rw [if_pos h2]
    · show (if idx < 0 ∨ idx ≥ (st.numParticles : Int) then st else _) = st
      rw [if_pos h2]
  · intro h
    have h2 : ¬ (idx < 0 ∨ idx ≥ (st.numParticles : Int)) := by omega
    refine ⟨by simp [setParticle, h2], by simp [setParticle, h2], ?_,
      by simp [setParticle, h2], by simp [setParticle, h2], by simp [setParticle, h2],
      by simp [setParticle, h2], by simp [setParticle, h2], by simp [setParticle, h2]⟩
    intro j hj
    constructor <;> simp [setParticle, h2, hj]

/-- Witness for C10 at index 0 of the one-particle state and at the
out-of-range index 5. -/
theorem C10_accessors_witness :
    (¬ (0 ≤ (5 : Int) ∧ (5 : Int) < (stW.numParticles : Int)) ∧
      getParticlePosition stW 5 = 0 ∧ setParticle stW 5 ⟨1, 1, 1⟩ ⟨2, 2, 2⟩ = stW) ∧
    ((0 ≤ (0 : Int) ∧ (0 : Int) < (stW.numParticles : Int)) ∧
      (setParticle stW 0 ⟨1, 1, 1⟩ ⟨2, 2, 2⟩).positions (0 : Int).toNat = ⟨1, 1, 1⟩) :=
  ⟨⟨by decide, (C10_accessors stW 5 ⟨1, 1, 1⟩ ⟨2, 2, 2⟩).1 (by decide)⟩,
   ⟨by decide, ((C10_accessors stW 0 ⟨1, 1, 1⟩ ⟨2, 2, 2⟩).2 (by decide)).1⟩⟩

/-- C2 counterexample: with capacity `C = 2`, `N = 0` and `k = 2` the claim
(`fail iff N + k > C`) demands success since `N + k = C`, but the code's
`>=` comparison raises CapacityExceeded. -/
theorem C2_capacity_counterexample :
    (initArrays 2 8).numParticles + ([(⟨0, 0, 0⟩ : Vec3), ⟨1, 0, 0⟩] : List Vec3).length ≤
      (initArrays 2 8).numMaxParticles ∧
    (addGranulars (initArrays 2 8) [⟨0, 0, 0⟩, ⟨1, 0, 0⟩] 1).2 =
      some SolverError.CapacityExceeded :=
  ⟨by decide, rfl⟩

/-- C2 (amended): every append fails with CapacityExceeded exactly when
`N + k ≥ C` — for `addRigidBody` also when `R + 1 ≥ R_max` — and whenever
the strict inequalities `N + k < C` (and `R + 1 < R_max`, and for
`addRigidBody` the centroid check passes) hold, the call succeeds and
increments `N` by `k` (and `R` by 1). -/
theorem C2_capacity_semantics (st : SolverArrays) (ps refs : List Vec3) (m : ℚ) :
    ((addGranulars st ps m).2 = some SolverError.CapacityExceeded ↔
      st.numParticles + ps.length ≥ st.numMaxParticles) ∧
    (st.numParticles + ps.length < st.numMaxParticles →
      (addGranulars st ps m).2 = none ∧
      (addGranulars st ps m).1.numParticles = st.numParticles + ps.length) ∧
    ((addFluids st ps m).2 = some SolverError.CapacityExceeded ↔
      st.numParticles + ps.length ≥ st.numMaxParticles) ∧
    (st.numParticles + ps.length < st.numMaxParticles →
      (addFluids st ps m).2 = none ∧
      (addFluids st ps m).1.numParticles = st.numParticles + ps.length) ∧
    ((addRigidBody st ps refs m).2 = some SolverError.CapacityExceeded ↔
      st.numParticles + ps.length ≥ st.numMaxParticles ∨
      st.numRigidBodies + 1 ≥ st.numMaxRigidBodies) ∧
    (st.numParticles + ps.length < st.numMaxParticles →
      st.numRigidBodies + 1 < st.numMaxRigidBodies →
      ¬ length2 (rigidCentroid refs) ≥ offCenterThreshold * offCenterThreshold →
      (addRigidBody st ps refs m).2 = none ∧
      (addRigidBody st ps refs m).1.numParticles = st.numParticles + ps.length ∧
      (addRigidBody st ps refs m).1.numRigidBodies = st.numRigidBodies + 1) := by
  by_cases h1 : st.numParticles + ps.length ≥ st.numMaxParticles
  · refine ⟨by simp [addGranulars, h1], by omega, by simp [addFluids, h1], by omega,
      by simp [addRigidBody, h1], by omega⟩
  · by_cases h2 : st.numRigidBodies + 1 ≥ st.numMaxRigidBodies
    · refine ⟨by simp [addGranulars, h1], ?_, by simp [addFluids, h1], ?_,
        by simp [addRigidBody, h1, h2], by omega⟩
      · intro _
        exact ⟨by simp [addGranulars, h1], by simp [addGranulars, h1]⟩
      · intro _
        exact ⟨by simp [addFluids, h1], by simp [addFluids, h1]⟩
    · by_cases h3 : length2 (rigidCentroid refs) ≥ offCenterThreshold * offCenterThreshold
      · refine ⟨by simp [addGranulars, h1], ?_, by simp [addFluids, h1], ?_,
          by simp [addRigidBody, h1, h2, h3], by intro _ _ hc; exact absurd h3 hc⟩
        · intro _
          exact ⟨by simp [addGranulars, h1], by simp [addGranulars, h1]⟩
        · intro _
          exact ⟨by simp [addFluids, h1], by simp [addFluids, h1]⟩
      · refine ⟨by simp [addGranulars, h1], ?_, by simp [addFluids, h1], ?_,
          by simp [addRigidBody, h1, h2, h3], ?_⟩
        · intro _
          exact ⟨by simp [addGranulars, h1], by simp [addGranulars, h1]⟩
        · intro _
          exact ⟨by simp [addFluids, h1], by simp [addFluids, h1]⟩
        · intro _ _ _
          exact ⟨by simp [addRigidBody, h1, h2, h3], by simp [addRigidBody, h1, h2, h3],
            by simp [addRigidBody, h1, h2, h3]⟩

/-- Witness for C2 (amended): a one-granular append inside capacity
succeeds. -/
theorem C2_capacity_semantics_witness :
    (initArrays 8 4).numParticles + ([(⟨0, 0, 0⟩ : Vec3)] : List Vec3).length <
      (initArrays 8 4).numMaxParticles ∧
    (addGranulars (initArrays 8 4) [⟨0, 0, 0⟩] 1).2 = none ∧
    (addGranulars (initArrays 8 4) [⟨0, 0, 0⟩] 1).1.numParticles =
      (initArrays 8 4).numParticles + ([(⟨0, 0, 0⟩ : Vec3)] : List Vec3).length :=
  ⟨by decide,
   (C2_capacity_semantics (initArrays 8 4) [⟨0, 0, 0⟩] [] 1).2.1 (by decide)⟩

/-- C7 counterexample: when the particle capacity is already exhausted and
the reference positions are off-center, the call fails with
CapacityExceeded, not OffCenterReference — so "fails with OffCenterReference
exactly when the centroid has magnitude ≥ 1e−5" is false as an unconditional
biconditional (the capacity checks run first). -/
theorem C7_off_center_counterexample :
    length2 (rigidCentroid [(⟨1, 0, 0⟩ : Vec3)]) ≥
      offCenterThreshold * offCenterThreshold ∧
    (addRigidBody (initArrays 0 4) [⟨0, 0, 0⟩] [⟨1, 0, 0⟩] 1).2 =
      some SolverError.CapacityExceeded :=
  ⟨by norm_num [rigidCentroid, length2, Vec3.scale, offCenterThreshold], rfl⟩

/-- C7 (amended): once both capacity checks pass, `addRigidBody` fails with
OffCenterReference exactly when the reference centroid's squared magnitude
is at least `(1e−5)²` (the source compares `glm::length(cm) >= 1e-5f`;
both sides are nonnegative, so comparing squares is the same test); and on
any failure — capacity or off-center — the state is returned unchanged. -/
theorem C7_off_center_semantics (st : SolverArrays) (ps refs : List Vec3) (m : ℚ) :
    (st.numParticles + ps.length < st.numMaxParticles →
      st.numRigidBodies + 1 < st.numMaxRigidBodies →
      ((addRigidBody st ps refs m).2 = some SolverError.OffCenterReference ↔
        length2 (rigidCentroid refs) ≥ offCenterThreshold * offCenterThreshold)) ∧
    (∀ e, (addRigidBody st ps refs m).2 = some e → (addRigidBody st ps refs m).1 = st) := by
  constructor
  · intro h1 h2
    by_cases h3 : length2 (rigidCentroid refs) ≥ offCenterThreshold * offCenterThreshold
    · simp [addRigidBody, Nat.not_le.mpr h1, Nat.not_le.mpr h2, h3]
    · simp [addRigidBody, Nat.not_le.mpr h1, Nat.not_le.mpr h2, h3]
  · intro e
    by_cases h1 : st.numParticles + ps.length ≥ st.numMaxParticles
    · simp [addRigidBody, h1]
    · by_cases h2 : st.numRigidBodies + 1 ≥ st.numMaxRigidBodies
      · simp [addRigidBody, h1, h2]
      · by_cases h3 : length2 (rigidCentroid refs) ≥ offCenterThreshold * offCenterThreshold
        · simp [addRigidBody, h1, h2, h3]
        · simp [addRigidBody, h1, h2, h3]

/-- Witness for C7 (amended): with free capacity, off-center references are
rejected with OffCenterReference and the state is unchanged. -/
theorem C7_off_center_semantics_witness :
    ((initArrays 8 4).numParticles + ([(⟨0, 0, 0⟩ : Vec3)] : List Vec3).length <
        (initArrays 8 4).numMaxParticles ∧
      (initArrays 8 4).numRigidBodies + 1 < (initArrays 8 4).numMaxRigidBodies ∧
      length2 (rigidCentroid [(⟨1, 0, 0⟩ : Vec3)]) ≥
        offCenterThreshold * offCenterThreshold) ∧
    (addRigidBody (initArrays 8 4) [⟨0, 0, 0⟩] [⟨1, 0, 0⟩] 1).2 =
      some SolverError.OffCenterReference ∧
    (addRigidBody (initArrays 8 4) [⟨0, 0, 0⟩] [⟨1, 0, 0⟩] 1).1 = initArrays 8 4 :=
  ⟨⟨by decide, by decide,
    by norm_num [rigidCentroid, length2, Vec3.scale, offCenterThreshold]⟩,
   ((C7_off_center_semantics (initArrays 8 4) [⟨0, 0, 0⟩] [⟨1, 0, 0⟩] 1).1
      (by decide) (by decide)).mpr
      (by norm_num [rigidCentroid, length2, Vec3.scale, offCenterThreshold]),
   (C7_off_center_semantics (initArrays 8 4) [⟨0, 0, 0⟩] [⟨1, 0, 0⟩] 1).2
      SolverError.OffCenterReference
      (((C7_off_center_semantics (initArrays 8 4) [⟨0, 0, 0⟩] [⟨1, 0, 0⟩] 1).1
        (by decide) (by decide)).mpr
        (by norm_num [rigidCentroid, length2, Vec3.scale, offCenterThreshold]))⟩

/-- The inner constraint iteration, flattened as the claim words it: plane
collision for every plane, fluid lambda, fluid position correction with its
scratch-buffer swap, and shape matching only when `R > 0`. -/
def specInnerIteration (numPlanes numRigidBodies : Nat) : List Pass :=
  (List.range numPlanes).map Pass.particlePlaneCollisionP
  ++ [Pass.fluidLambdaP, Pass.fluidPositionP, Pass.swapNewPositionsP]
  ++ (if 0 < numRigidBodies then [Pass.shapeMatchingP] else [])

/-- The per-substep pass sequence exactly as the specification states it:
gravity, position prediction, shock-propagation masses, 2 stabilization
iterations over all planes, 1 grid build followed by 2 inner constraint
iterations, then velocity update, position commit, vorticity and its
confinement force, the cohesion block when enabled, and XSPH viscosity with
its swap. -/
def specSubstepPasses (numPlanes numRigidBodies : Nat) (cohesionEnabled : Bool)
    (deltaTime subDeltaTime : ℚ) : List Pass :=
  [Pass.applyForcesP subDeltaTime, Pass.predictPositionsP subDeltaTime,
   Pass.computeInvScaledMassesP]
  ++ (List.range numPlanes).map Pass.planeStabilizeP
  ++ (List.range numPlanes).map Pass.planeStabilizeP
  ++ [Pass.updateGridP]
  ++ specInnerIteration numPlanes numRigidBodies
  ++ specInnerIteration numPlanes numRigidBodies
  ++ [Pass.updateVelocityP (1 / subDeltaTime), Pass.updatePositionsP,
      Pass.fluidOmegaP, Pass.fluidVorticityP subDeltaTime]
  ++ (if cohesionEnabled then
        [Pass.fluidNormalP, Pass.fluidAkinciTensionP deltaTime, Pass.swapVelocitiesP]
      else [])
  ++ [Pass.fluidXSphP, Pass.swapVelocitiesP]

/-- The source's loop nest, flattened, is the claim's sequence. -/
theorem substepTrace_eq_spec (numPlanes R : Nat) (ak : Bool) (pid : Int)
    (dt sdt : ℚ) :
    substepTrace numPlanes R ak false pid dt sdt =
      specSubstepPasses numPlanes R ak dt sdt := by
  simp [substepTrace, specSubstepPasses, specInnerIteration]

/-- Every member of the update trace is either a substep pass or the final
picked-particle fix-up. -/
theorem mem_updateTrace {p : Pass} {S : Nat} {dt : ℚ} {nP R N : Nat} {pid : Int}
    (h : p ∈ updateTrace S dt nP R N pid) :
    p ∈ substepTrace nP R true (decide (0 ≤ pid ∧ pid < (N : Int))) pid dt
        (dt / (S : ℚ)) ∨
      p = Pass.fixPickedParticleP pid := by
  simp only [updateTrace] at h
  rcases List.mem_append.mp h with h1 | h2
  · rcases List.mem_flatten.mp h1 with ⟨l, hl, hp⟩
    rcases List.mem_replicate.mp hl with ⟨_, rfl⟩
    exact Or.inl hp
  · cases hd : decide (0 ≤ pid ∧ pid < ((N : Nat) : Int)) with
    | false => rw [hd] at h2; simp at h2
    | true =>
      rw [hd] at h2
      simp at h2
      exact Or.inr h2

/-- Only the Akinci tension launch carries `deltaTime`; in the substep trace
it always carries exactly the whole-frame `deltaTime`. -/
theorem substepTrace_akinci_dt {d : ℚ} {nP R : Nat} {ak pk : Bool} {pid : Int}
    {dt sdt : ℚ} (h : Pass.fluidAkinciTensionP d ∈ substepTrace nP R ak pk pid dt sdt) :
    d = dt := by
  cases ak <;> cases pk <;> by_cases hR : 0 < R <;>
    simp [substepTrace, hR] at h <;> exact h

/-- Gravity is always launched with the substep `subDeltaTime`. -/
theorem substepTrace_gravity_dt {d : ℚ} {nP R : Nat} {ak pk : Bool} {pid : Int}
    {dt sdt : ℚ} (h : Pass.applyForcesP d ∈ substepTrace nP R ak pk pid dt sdt) :
    d = sdt := by
  cases ak <;> cases pk <;> by_cases hR : 0 < R <;>
    simp [substepTrace, hR] at h <;> exact h

/-- Vorticity confinement is always launched with the substep
`subDeltaTime`. -/
theorem substepTrace_vorticity_dt {d : ℚ} {nP R : Nat} {ak pk : Bool} {pid : Int}
    {dt sdt : ℚ} (h : Pass.fluidVorticityP d ∈ substepTrace nP R ak pk pid dt sdt) :
    d = sdt := by
  cases ak <;> cases pk <;> by_cases hR : 0 < R <;>
    simp [substepTrace, hR] at h <;> exact h

/-- The whole substep trace occurs in the update trace once `S > 0`. -/
theorem substep_sublist_updateTrace {S : Nat} (hS : 0 < S) {dt : ℚ}
    {nP R N : Nat} {pid : Int} {p : Pass}
    (h : p ∈ substepTrace nP R true (decide (0 ≤ pid ∧ pid < (N : Int))) pid dt
      (dt / (S : ℚ))) :
    p ∈ updateTrace S dt nP R N pid := by
  simp only [updateTrace]
  refine List.mem_append.mpr (Or.inl (List.mem_flatten.mpr ⟨_, ?_, h⟩))
  exact List.mem_replicate.mpr ⟨by omega, rfl⟩

/-- C3: in every substep of `update(S, Δt)` the Akinci cohesion/surface
tension pass is launched with the whole-frame `Δt`, while gravity and the
vorticity-confinement force of the same substep are launched with the
substep `δt = Δt/S` — and, when `S > 0`, each of the three does occur with
exactly that time step. -/
theorem C3_akinci_whole_frame_dt (S : Nat) (dt : ℚ) (numPlanes R N : Nat)
    (pid : Int) :
    (∀ d, Pass.fluidAkinciTensionP d ∈ updateTrace S dt numPlanes R N pid →
      d = dt) ∧
    (∀ d, Pass.applyForcesP d ∈ updateTrace S dt numPlanes R N pid →
      d = dt / (S : ℚ)) ∧
    (∀ d, Pass.fluidVorticityP d ∈ updateTrace S dt numPlanes R N pid →
      d = dt / (S : ℚ)) ∧
    (0 < S →
      Pass.fluidAkinciTensionP dt ∈ updateTrace S dt numPlanes R N pid ∧
      Pass.applyForcesP (dt / (S : ℚ)) ∈ updateTrace S dt numPlanes R N pid ∧
      Pass.fluidVorticityP (dt / (S : ℚ)) ∈ updateTrace S dt numPlanes R N pid) := by
  refine ⟨?_, ?_, ?_, ?_⟩
  · intro d h
    rcases mem_updateTrace h with h1 | h1
    · exact substepTrace_akinci_dt h1
    · exact absurd h1 (by simp)
  · intro d h
    rcases mem_updateTrace h with h1 | h1
    · exact substepTrace_gravity_dt h1
    · exact absurd h1 (by simp)
  · intro d h
    rcases mem_updateTrace h with h1 | h1
    · exact substepTrace_vorticity_dt h1
    · exact absurd h1 (by simp)
  · intro hS
    refine ⟨substep_sublist_updateTrace hS ?_, substep_sublist_updateTrace hS ?_,
      substep_sublist_updateTrace hS ?_⟩ <;> simp [substepTrace]

/-- Witness for C3 at `S = 2`, `Δt = 1/60`: the Akinci pass of the trace
carries `1/60`, and gravity carries `1/120`. -/
theorem C3_akinci_whole_frame_dt_witness :
    Pass.fluidAkinciTensionP (1/60) ∈ updateTrace 2 (1/60) 1 0 1 (-1) ∧
    (0 < 2 ∧
      Pass.applyForcesP ((1/60) / ((2 : Nat) : ℚ)) ∈ updateTrace 2 (1/60) 1 0 1 (-1)) :=
  ⟨((C3_akinci_whole_frame_dt 2 (1/60) 1 0 1 (-1)).2.2.2 (by decide)).1,
   by decide,
   ((C3_akinci_whole_frame_dt 2 (1/60) 1 0 1 (-1)).2.2.2 (by decide)).2.1⟩

/-- C4: with no picked particle (`pickedParticleId = −1`, the default),
`update(S, Δt)` executes exactly `S` copies of the claimed substep
sequence; the flattening of the source's loop nest into the claimed order
holds for every parameter value, with shape matching present exactly when
`R > 0` and the cohesion block exactly when the flag is enabled. -/
theorem C4_pass_sequence (S : Nat) (dt : ℚ) (numPlanes R N : Nat) :
    updateTrace S dt numPlanes R N (-1) =
      (List.replicate S
        (specSubstepPasses numPlanes R true dt (dt / (S : ℚ)))).flatten := by
  have hd : decide (0 ≤ (-1 : Int) ∧ (-1 : Int) < ((N : Nat) : Int)) = false := by
    simp
  simp only [updateTrace, hd, Bool.false_eq_true, if_false, List.append_nil]
  rw [substepTrace_eq_spec]

/-- C4 needs no witness (no hypotheses), but the concrete `S = 2` instance
of the simple scene evaluates as expected. -/
theorem C4_pass_sequence_example :
    updateTrace 2 (1/60) 5 1 5 (-1) =
      (List.replicate 2 (specSubstepPasses 5 1 true (1/60) ((1/60) / ((2 : Nat) : ℚ)))).flatten :=
  C4_pass_sequence 2 (1/60) 5 1 5

/- ## Particle-count preservation through the driver -/

@[simp] theorem applyForces_count (dt : ℚ) (st : PState) :
    (applyForces dt st).numParticles = st.numParticles := rfl

@[simp] theorem predictPositions_count (dt : ℚ) (st : PState) :
    (predictPositions dt st).numParticles = st.numParticles := rfl

@[simp] theorem computeInvScaledMasses_count (f : ℚ → ℚ) (k : ℚ) (st : PState) :
    (computeInvScaledMasses f k st).numParticles = st.numParticles := rfl

@[simp] theorem updateVelocity_count (idt : ℚ) (st : PState) :
    (updateVelocity idt st).numParticles = st.numParticles := rfl

@[simp] theorem updatePositions_count (t : ℚ) (st : PState) :
    (updatePositions t st).numParticles = st.numParticles := rfl

@[simp] theorem swapNewTemp_count (st : PState) :
    (swapNewTemp st).numParticles = st.numParticles := rfl

@[simp] theorem swapVelTemp_count (st : PState) :
    (swapVelTemp st).numParticles = st.numParticles := rfl

@[simp] theorem setParticle_count (st : PState) (idx : Int) (p v : Vec3) :
    (setParticle st idx p v).numParticles = st.numParticles := by
  unfold setParticle
  split <;> rfl

@[simp] theorem substepPhase1_count (sdt : ℚ) (pid : Int) (ppos : Vec3) (st : PState) :
    (substepPhase1 sdt pid ppos st).numParticles = st.numParticles := by
  simp only [substepPhase1]
  split
  · rw [setParticle_count, applyForces_count]
  · rfl

/-- Folding count-preserving passes preserves the count. -/
theorem foldl_count {β : Type} (f : PState → β → PState)
    (hf : ∀ st b, (f st b).numParticles = st.numParticles) (l : List β) :
    ∀ st : PState, (l.foldl f st).numParticles = st.numParticles := by
  induction l with
  | nil => intro st; rfl
  | cons a l ih => intro st; rw [List.foldl_cons, ih, hf]

theorem innerIteration_count (K : DeviceKernels) (planes : List Plane) (R : Nat)
    (hK : KernelsPreserve K) (st : PState) :
    (innerIteration K planes R st).numParticles = st.numParticles := by
  obtain ⟨hps, hpc, hug, hfl, hfp, hsm, hfo, hfv, hfn, hat, hxs⟩ := hK
  have hcp : ∀ s : PState, (collidePlanes K planes s).numParticles = s.numParticles :=
    fun s => foldl_count _ (fun s2 p => hpc p s2) planes s
  by_cases hR : 0 < R <;> simp [innerIteration, hR, hsm, hfp, hfl, hcp]

theorem projectionLoop_count (K : DeviceKernels) (planes : List Plane) (R : Nat)
    (hK : KernelsPreserve K) (st : PState) :
    (projectionLoop K planes R st).numParticles = st.numParticles := by
  have hinner : ∀ (s : PState) (b : Nat),
      (innerIteration K planes R s).numParticles = s.numParticles :=
    fun s _ => innerIteration_count K planes R hK s
  unfold projectionLoop
  rw [show List.range 1 = [0] from rfl, List.foldl_cons, List.foldl_nil,
    foldl_count _ (fun s b => hinner s b) (List.range 2), hK.2.2.1]

theorem substep_count (K : DeviceKernels) (P : SolverParams) (hK : KernelsPreserve K)
    (dt sdt : ℚ) (ak : Bool) (pid : Int) (ppos : Vec3) (st : PState) :
    (substep K P dt sdt ak pid ppos st).numParticles = st.numParticles := by
  obtain ⟨hps, hpc, hug, hfl, hfp, hsm, hfo, hfv, hfn, hat, hxs⟩ := hK
  have hstab : ∀ (s : PState) (b : Nat),
      (stabilizePlanes K P.planes s).numParticles = s.numParticles :=
    fun s _ => foldl_count _ (fun s2 p => hps p s2) P.planes s
  have hstabf : ∀ s : PState,
      (((List.range 2).foldl (fun s2 _ => stabilizePlanes K P.planes s2) s)).numParticles
        = s.numParticles :=
    foldl_count _ hstab (List.range 2)
  have hproj : ∀ s : PState,
      (projectionLoop K P.planes P.numRigidBodies s).numParticles = s.numParticles :=
    projectionLoop_count K P.planes P.numRigidBodies
      ⟨hps, hpc, hug, hfl, hfp, hsm, hfo, hfv, hfn, hat, hxs⟩
  cases ak <;>
    simp [substep, hstabf, hproj, hfo, hfv, hfn, hat, hxs]

/-- The loop state after `n` substeps at fixed `subDeltaTime`. -/
def substepIter (K : DeviceKernels) (P : SolverParams) (dt sdt : ℚ) (pid : Int)
    (ppos : Vec3) (n : Nat) (st : PState) : PState :=
  (List.range n).foldl (fun s _ => substep K P dt sdt true pid ppos s) st

theorem substepLoop_eq_iter (K : DeviceKernels) (P : SolverParams) (S : Nat)
    (dt : ℚ) (pid : Int) (ppos : Vec3) (st : PState) :
    substepLoop K P S dt pid ppos st =
      substepIter K P dt (dt / (S : ℚ)) pid ppos S st := rfl

theorem substepIter_count (K : DeviceKernels) (P : SolverParams)
    (hK : KernelsPreserve K) (dt sdt : ℚ) (pid : Int) (ppos : Vec3) (n : Nat)
    (st : PState) :
    (substepIter K P dt sdt pid ppos n st).numParticles = st.numParticles :=
  foldl_count _ (fun s _ => substep_count K P hK dt sdt true pid ppos s)
    (List.range n) st

/-- A substep whose entry state rejects the picked id equals the substep
with the no-pick default id −1. -/
theorem substep_no_pick (K : DeviceKernels) (P : SolverParams) (dt sdt : ℚ)
    (pid : Int) (ppos : Vec3) (s : PState)
    (h : ¬ (0 ≤ pid ∧ pid < (s.numParticles : Int))) :
    substep K P dt sdt true pid ppos s = substep K P dt sdt true (-1) ppos s := by
  have h1 : ¬ (0 ≤ pid ∧ pid < (((applyForces sdt s).numParticles : Nat) : Int)) := h
  have h2 : ¬ (0 ≤ (-1 : Int) ∧
      (-1 : Int) < (((applyForces sdt s).numParticles : Nat) : Int)) := by omega
  unfold substep substepPhase1
  rw [if_neg h1, if_neg h2]

theorem substepIter_no_pick (K : DeviceKernels) (P : SolverParams)
    (hK : KernelsPreserve K) (dt sdt : ℚ) (pid : Int) (ppos : Vec3) (st : PState)
    (h : ¬ (0 ≤ pid ∧ pid < (st.numParticles : Int))) :
    ∀ n, substepIter K P dt sdt pid ppos n st =
      substepIter K P dt sdt (-1) ppos n st := by
  intro n
  induction n with
  | zero => rfl
  | succ n ih =>
    unfold substepIter at ih ⊢
    rw [List.range_succ, List.foldl_append, List.foldl_append,
      List.foldl_cons, List.foldl_nil, List.foldl_cons, List.foldl_nil, ← ih]
    have hn : ¬ (0 ≤ pid ∧ pid <
        (((substepIter K P dt sdt pid ppos n st).numParticles : Nat) : Int)) := by
      rw [substepIter_count K P hK]
      exact h
    exact substep_no_pick K P dt sdt pid ppos _ hn

/-- C9: with any particle-count-preserving device kernels, when the picked
id is in `[0, N)` then in every substep the pick pass — immediately after
gravity — overwrites exactly the picked particle's position with
`pickedParticlePosition` and its velocity with zero, and after the last
substep the fix-up sets its velocity to `pickedParticleVelocity` while all
positions keep their solved values and no other particle's velocity is
touched; for an out-of-range id `update` behaves exactly as with the
default id −1. -/
theorem C9_picked_particle (K : DeviceKernels) (P : SolverParams)
    (hK : KernelsPreserve K) (S : Nat) (dt : ℚ) (pid : Int) (ppos pvel : Vec3)
    (st : PState) :
    (∀ n, (substepIter K P dt (dt / (S : ℚ)) pid ppos n st).numParticles =
      st.numParticles) ∧
    (∀ s : PState, s.numParticles = st.numParticles →
      (0 ≤ pid ∧ pid < (st.numParticles : Int)) →
      (substepPhase1 (dt / (S : ℚ)) pid ppos s).positions pid.toNat = ppos ∧
      (substepPhase1 (dt / (S : ℚ)) pid ppos s).velocities pid.toNat = 0 ∧
      (∀ j, j ≠ pid.toNat →
        (substepPhase1 (dt / (S : ℚ)) pid ppos s).positions j =
          (applyForces (dt / (S : ℚ)) s).positions j ∧
        (substepPhase1 (dt / (S : ℚ)) pid ppos s).velocities j =
          (applyForces (dt / (S : ℚ)) s).velocities j)) ∧
    ((0 ≤ pid ∧ pid < (st.numParticles : Int)) →
      (update K P S dt pid ppos pvel st).velocities pid.toNat = pvel ∧
      (update K P S dt pid ppos pvel st).positions =
        (substepLoop K P S dt pid ppos st).positions ∧
      (∀ j, j ≠ pid.toNat →
        (update K P S dt pid ppos pvel st).velocities j =
          (substepLoop K P S dt pid ppos st).velocities j)) ∧
    (¬ (0 ≤ pid ∧ pid < (st.numParticles : Int)) →
      update K P S dt pid ppos pvel st = update K P S dt (-1) ppos pvel st) := by
  refine ⟨fun n => substepIter_count K P hK _ _ pid ppos n st, ?_, ?_, ?_⟩
  · intro s hs hin
    have hguard : 0 ≤ pid ∧ pid <
        (((applyForces (dt / (S : ℚ)) s).numParticles : Nat) : Int) := by
      rw [applyForces_count, hs]
      exact hin
    have hnot : ¬ (pid < 0 ∨ pid ≥
        (((applyForces (dt / (S : ℚ)) s).numParticles : Nat) : Int)) := by
      rw [applyForces_count, hs]
      omega
    unfold substepPhase1
    rw [if_pos hguard]
    unfold setParticle
    rw [if_neg hnot]
    refine ⟨by simp, by simp, ?_⟩
    intro j hj
    constructor <;> simp [hj]
  · intro hin
    have hcount : (substepLoop K P S dt pid ppos st).numParticles = st.numParticles := by
      rw [substepLoop_eq_iter]
      exact substepIter_count K P hK _ _ pid ppos S st
    have hguard : 0 ≤ pid ∧ pid <
        ((substepLoop K P S dt pid ppos st).numParticles : Int) := by
      rw [hcount]
      exact hin
    have hnot : ¬ (pid < 0 ∨ pid ≥
        ((substepLoop K P S dt pid ppos st).numParticles : Int)) := by
      rw [hcount]
      omega
    unfold update
    rw [if_pos hguard]
    unfold setParticle
    rw [if_neg hnot]
    refine ⟨by simp, ?_, ?_⟩
    · funext i
      simp only []
      by_cases hi : i = pid.toNat
      · subst hi
        unfold getParticlePosition
        rw [if_neg hnot, if_pos rfl]
      · rw [if_neg hi]
    · intro j hj
      simp [hj]
  · intro hout
    have hiter := substepIter_no_pick K P hK dt (dt / (S : ℚ)) pid ppos st hout S
    unfold update
    rw [substepLoop_eq_iter, substepLoop_eq_iter, hiter]
    have hcount : (substepIter K P dt (dt / (S : ℚ)) (-1) ppos S st).numParticles =
        st.numParticles := substepIter_count K P hK _ _ (-1) ppos S st
    have hno1 : ¬ (0 ≤ pid ∧ pid <
        ((substepIter K P dt (dt / (S : ℚ)) (-1) ppos S st).numParticles : Int)) := by
      rw [hcount]
      exact hout
    have hno2 : ¬ (0 ≤ (-1 : Int) ∧ (-1 : Int) <
        ((substepIter K P dt (dt / (S : ℚ)) (-1) ppos S st).numParticles : Int)) := by
      omega
    rw [if_neg hno1, if_neg hno2]

/-- Identity device kernels, used to instantiate the driver theorems. -/
def idKernels : DeviceKernels :=
  { planeStabilize := fun _ s => s
    particlePlaneCollision := fun _ s => s
    updateGrid := fun s => s
    fluidLambda := fun s => s
    fluidPosition := fun s => s
    shapeMatching := fun s => s
    fluidOmega := fun s => s
    fluidVorticity := fun _ s => s
    fluidNormal := fun s => s
    fluidAkinciTension := fun _ s => s
    fluidXSph := fun s => s }

theorem idKernels_preserve : KernelsPreserve idKernels :=
  ⟨fun _ _ => rfl, fun _ _ => rfl, fun _ => rfl, fun _ => rfl, fun _ => rfl,
   fun _ => rfl, fun _ => rfl, fun _ _ => rfl, fun _ => rfl, fun _ _ => rfl,
   fun _ => rfl⟩

/-- Concrete solver parameters for witnesses. -/
def paramsW : SolverParams :=
  { expFn := fun q => q
    massScalingConstant := 1
    particleSleepingEpsilon := 1/1000
    planes := []
    numRigidBodies := 0 }

/-- Witness for C9: picked particle 0 of the one-particle state receives
`pickedParticleVelocity` after `update`. -/
theorem C9_picked_particle_witness :
    (0 ≤ (0 : Int) ∧ (0 : Int) < (stW.numParticles : Int)) ∧
    (update idKernels paramsW 1 (1/60) 0 ⟨1, 2, 3⟩ ⟨4, 5, 6⟩ stW).velocities
      (0 : Int).toNat = ⟨4, 5, 6⟩ :=
  ⟨by decide,
   ((C9_picked_particle idKernels paramsW idKernels_preserve 1 (1/60) 0
      ⟨1, 2, 3⟩ ⟨4, 5, 6⟩ stW).2.2.1 (by decide)).1⟩

/- ## Phase-partition invariant -/

/-- A successful `addGranulars` preserves the phase-partition invariant. -/
theorem phaseInv_addGranulars (st : SolverArrays) (km : Nat → Option PKind)
    (ps : List Vec3) (m : ℚ)
    (hc : ¬ st.numParticles + ps.length ≥ st.numMaxParticles)
    (inv : PhaseInv st km) :
    PhaseInv (addGranulars st ps m).1
      (kindAfter st (addGranulars st ps m).1 (AppendOp.granulars ps m) km) := by
  obtain ⟨i0, i1, i2, i3, i4, i5, i6, i7, i8, i9⟩ := inv
  have hph : ∀ i, (addGranulars st ps m).1.phases i =
      if st.numParticles ≤ i ∧ i < st.numParticles + ps.length then
        st.solidPhaseCounter + ((i : Int) - (st.numParticles : Int))
      else st.phases i := by
    intro i
    simp [addGranulars, hc, setDevArr_counterIncrement]
  have hctr : (addGranulars st ps m).1.solidPhaseCounter =
      st.solidPhaseCounter + (ps.length : Int) := by
    simp [addGranulars, hc, setDevArr_counterIncrement]
  have hN : (addGranulars st ps m).1.numParticles = st.numParticles + ps.length := by
    simp [addGranulars, hc]
  have hR : (addGranulars st ps m).1.numRigidBodies = st.numRigidBodies := by
    simp [addGranulars, hc]
  have hkm : ∀ i, kindAfter st (addGranulars st ps m).1 (AppendOp.granulars ps m) km i =
      if st.numParticles ≤ i ∧ i < st.numParticles + ps.length then
        some PKind.granular
      else km i := by
    intro i
    simp [kindAfter, opKind, hN]
  unfold PhaseInv
  simp only [hph, hctr, hN, hR, hkm]
  refine ⟨by omega, ?_, ?_, ?_, ?_, ?_, ?_, ?_, ?_, ?_⟩
  · intro i hi
    by_cases h : st.numParticles ≤ i ∧ i < st.numParticles + ps.length
    · omega
    · rw [if_neg h] at hi
      have := i1 i hi
      omega
  · intro i hi
    by_cases h : st.numParticles ≤ i ∧ i < st.numParticles + ps.length
    · rw [if_pos h]
      rfl
    · rw [if_neg h]
      exact i2 i (by omega)
  · intro i b hb
    by_cases h : st.numParticles ≤ i ∧ i < st.numParticles + ps.length
    · rw [if_pos h] at hb
      exact absurd hb (by simp)
    · rw [if_neg h] at hb
      exact i3 i b hb
  · intro i hf
    by_cases h : st.numParticles ≤ i ∧ i < st.numParticles + ps.length
    · rw [if_pos h] at hf
      exact absurd hf (by simp)
    · rw [if_neg h] at hf
      rw [if_neg h]
      exact i4 i hf
  · intro i hs hnf
    by_cases h : st.numParticles ≤ i ∧ i < st.numParticles + ps.length
    · rw [if_pos h]
      omega
    · rw [if_neg h] at hs hnf
      rw [if_neg h]
      have := i5 i hs hnf
      omega
  · intro i j hgi hgj hij
    by_cases h1 : st.numParticles ≤ i ∧ i < st.numParticles + ps.length <;>
      by_cases h2 : st.numParticles ≤ j ∧ j < st.numParticles + ps.length
    · rw [if_pos h1, if_pos h2]
      omega
    · rw [if_neg h2] at hgj
      rw [if_pos h1, if_neg h2]
      have := i5 j (by simp [hgj]) (by simp [hgj])
      omega
    · rw [if_neg h1] at hgi
      rw [if_neg h1, if_pos h2]
      have := i5 i (by simp [hgi]) (by simp [hgi])
      omega
    · rw [if_neg h1] at hgi
      rw [if_neg h2] at hgj
      rw [if_neg h1, if_neg h2]
      exact i6 i j hgi hgj hij
  · intro i j b hbi hbj
    by_cases h1 : st.numParticles ≤ i ∧ i < st.numParticles + ps.length
    · rw [if_pos h1] at hbi
      exact absurd hbi (by simp)
    · by_cases h2 : st.numParticles ≤ j ∧ j < st.numParticles + ps.length
      · rw [if_pos h2] at hbj
        exact absurd hbj (by simp)
      · rw [if_neg h1] at hbi
        rw [if_neg h2] at hbj
        rw [if_neg h1, if_neg h2]
        exact i7 i j b hbi hbj
  · intro i j b b2 hbi hbj hbb
    by_cases h1 : st.numParticles ≤ i ∧ i < st.numParticles + ps.length
    · rw [if_pos h1] at hbi
      exact absurd hbi (by simp)
    · by_cases h2 : st.numParticles ≤ j ∧ j < st.numParticles + ps.length
      · rw [if_pos h2] at hbj
        exact absurd hbj (by simp)
      · rw [if_neg h1] at hbi
        rw [if_neg h2] at hbj
        rw [if_neg h1, if_neg h2]
        exact i8 i j b b2 hbi hbj hbb
  · intro i j b hgi hbj
    by_cases h2 : st.numParticles ≤ j ∧ j < st.numParticles + ps.length
    · rw [if_pos h2] at hbj
      exact absurd hbj (by simp)
    · rw [if_neg h2] at hbj
      by_cases h1 : st.numParticles ≤ i ∧ i < st.numParticles + ps.length
      · rw [if_pos h1, if_neg h2]
        have := i5 j (by simp [hbj]) (by simp [hbj])
        omega
      · rw [if_neg h1] at hgi
        rw [if_neg h1, if_neg h2]
        exact i9 i j b hgi hbj

/-- A successful `addRigidBody` preserves the phase-partition invariant. -/
theorem phaseInv_addRigidBody (st : SolverArrays) (km : Nat → Option PKind)
    (ps refs : List Vec3) (m : ℚ)
    (hc1 : ¬ st.numParticles + ps.length ≥ st.numMaxParticles)
    (hc2 : ¬ st.numRigidBodies + 1 ≥ st.numMaxRigidBodies)
    (hc3 : ¬ length2 (rigidCentroid refs) ≥ offCenterThreshold * offCenterThreshold)
    (inv : PhaseInv st km) :
    PhaseInv (addRigidBody st ps refs m).1
      (kindAfter st (addRigidBody st ps refs m).1 (AppendOp.rigid ps refs m) km) := by
  obtain ⟨i0, i1, i2, i3, i4, i5, i6, i7, i8, i9⟩ := inv
  have hph : ∀ i, (addRigidBody st ps refs m).1.phases i =
      if st.numParticles ≤ i ∧ i < st.numParticles + ps.length then
        st.solidPhaseCounter
      else st.phases i := by
    intro i
    simp [addRigidBody, hc1, hc2, hc3, writeRangeConst]
  have hctr : (addRigidBody st ps refs m).1.solidPhaseCounter =
      st.solidPhaseCounter + 1 := by
    simp [addRigidBody, hc1, hc2, hc3]
  have hN : (addRigidBody st ps refs m).1.numParticles =
      st.numParticles + ps.length := by
    simp [addRigidBody, hc1, hc2, hc3]
  have hR : (addRigidBody st ps refs m).1.numRigidBodies =
      st.numRigidBodies + 1 := by
    simp [addRigidBody, hc1, hc2, hc3]
  have hkm : ∀ i, kindAfter st (addRigidBody st ps refs m).1 (AppendOp.rigid ps refs m) km i =
      if st.numParticles ≤ i ∧ i < st.numParticles + ps.length then
        some (PKind.rigidMember st.numRigidBodies)
      else km i := by
    intro i
    simp [kindAfter, opKind, hN]
  unfold PhaseInv
  simp only [hph, hctr, hN, hR, hkm]
  refine ⟨by omega, ?_, ?_, ?_, ?_, ?_, ?_, ?_, ?_, ?_⟩
  · intro i hi
    by_cases h : st.numParticles ≤ i ∧ i < st.numParticles + ps.length
    · omega
    · rw [if_neg h] at hi
      have := i1 i hi
      omega
  · intro i hi
    by_cases h : st.numParticles ≤ i ∧ i < st.numParticles + ps.length
    · rw [if_pos h]
      rfl
    · rw [if_neg h]
      exact i2 i (by omega)
  · intro i b hb
    by_cases h : st.numParticles ≤ i ∧ i < st.numParticles + ps.length
    · rw [if_pos h] at hb
      have : b = st.numRigidBodies := by
        have := Option.some.inj hb
        exact (PKind.rigidMember.inj this).symm
      omega
    · rw [if_neg h] at hb
      have := i3 i b hb
      omega
  · intro i hf
    by_cases h : st.numParticles ≤ i ∧ i < st.numParticles + ps.length
    · rw [if_pos h] at hf
      exact absurd hf (by simp)
    · rw [if_neg h] at hf
      rw [if_neg h]
      exact i4 i hf
  · intro i hs hnf
    by_cases h : st.numParticles ≤ i ∧ i < st.numParticles + ps.length
    · rw [if_pos h]
      omega
    · rw [if_neg h] at hs hnf
      rw [if_neg h]
      have := i5 i hs hnf
      omega
  · intro i j hgi hgj hij
    by_cases h1 : st.numParticles ≤ i ∧ i < st.numParticles + ps.length
    · rw [if_pos h1] at hgi
      exact absurd hgi (by simp)
    · by_cases h2 : st.numParticles ≤ j ∧ j < st.numParticles + ps.length
      · rw [if_pos h2] at hgj
        exact absurd hgj (by simp)
      · rw [if_neg h1] at hgi
        rw [if_neg h2] at hgj
        rw [if_neg h1, if_neg h2]
        exact i6 i j hgi hgj hij
  · intro i j b hbi hbj
    by_cases h1 : st.numParticles ≤ i ∧ i < st.numParticles + ps.length <;>
      by_cases h2 : st.numParticles ≤ j ∧ j < st.numParticles + ps.length
    · rw [if_pos h1, if_pos h2]
    · rw [if_pos h1] at hbi
      rw [if_neg h2] at hbj
      have hb : b = st.numRigidBodies :=
        (PKind.rigidMember.inj (Option.some.inj hbi)).symm
      subst hb
      have := i3 j st.numRigidBodies hbj
      omega
    · rw [if_neg h1] at hbi
      rw [if_pos h2] at hbj
      have hb : b = st.numRigidBodies :=
        (PKind.rigidMember.inj (Option.some.inj hbj)).symm
      subst hb
      have := i3 i st.numRigidBodies hbi
      omega
    · rw [if_neg h1] at hbi
      rw [if_neg h2] at hbj
      rw [if_neg h1, if_neg h2]
      exact i7 i j b hbi hbj
  · intro i j b b2 hbi hbj hbb
    by_cases h1 : st.numParticles ≤ i ∧ i < st.numParticles + ps.length <;>
      by_cases h2 : st.numParticles ≤ j ∧ j < st.numParticles + ps.length
    · rw [if_pos h1] at hbi
      rw [if_pos h2] at hbj
      have hbi2 : b = st.numRigidBodies :=
        (PKind.rigidMember.inj (Option.some.inj hbi)).symm
      have hbj2 : b2 = st.numRigidBodies :=
        (PKind.rigidMember.inj (Option.some.inj hbj)).symm
      exact absurd (hbi2.trans hbj2.symm) hbb
    · rw [if_neg h2] at hbj
      rw [if_pos h1, if_neg h2]
      have := i5 j (by simp [hbj]) (by simp [hbj])
      omega
    · rw [if_neg h1] at hbi
      rw [if_neg h1, if_pos h2]
      have := i5 i (by simp [hbi]) (by simp [hbi])
      omega
    · rw [if_neg h1] at hbi
      rw [if_neg h2] at hbj
      rw [if_neg h1, if_neg h2]
      exact i8 i j b b2 hbi hbj hbb
  · intro i j b hgi hbj
    by_cases h1 : st.numParticles ≤ i ∧ i < st.numParticles + ps.length
    · rw [if_pos h1] at hgi
      exact absurd hgi (by simp)
    · rw [if_neg h1] at hgi
      by_cases h2 : st.numParticles ≤ j ∧ j < st.numParticles + ps.length
      · rw [if_neg h1, if_pos h2]
        have := i5 i (by simp [hgi]) (by simp [hgi])
        omega
      · rw [if_neg h2] at hbj
        rw [if_neg h1, if_neg h2]
        exact i9 i j b hgi hbj

/-- A successful `addFluids` preserves the phase-partition invariant. -/
theorem phaseInv_addFluids (st : SolverArrays) (km : Nat → Option PKind)
    (ps : List Vec3) (m : ℚ)
    (hc : ¬ st.numParticles + ps.length ≥ st.numMaxParticles)
    (inv : PhaseInv st km) :
    PhaseInv (addFluids st ps m).1
      (kindAfter st (addFluids st ps m).1 (AppendOp.fluids ps m) km) := by
  obtain ⟨i0, i1, i2, i3, i4, i5, i6, i7, i8, i9⟩ := inv
  have hph : ∀ i, (addFluids st ps m).1.phases i =
      if st.numParticles ≤ i ∧ i < st.numParticles + ps.length then (-1 : Int)
      else st.phases i := by
    intro i
    simp [addFluids, hc, writeRangeConst]
  have hctr : (addFluids st ps m).1.solidPhaseCounter = st.solidPhaseCounter := by
    simp [addFluids, hc]
  have hN : (addFluids st ps m).1.numParticles = st.numParticles + ps.length := by
    simp [addFluids, hc]
  have hR : (addFluids st ps m).1.numRigidBodies = st.numRigidBodies := by
    simp [addFluids, hc]
  have hkm : ∀ i, kindAfter st (addFluids st ps m).1 (AppendOp.fluids ps m) km i =
      if st.numParticles ≤ i ∧ i < st.numParticles + ps.length then
        some PKind.fluid
      else km i := by
    intro i
    simp [kindAfter, opKind, hN]
  unfold PhaseInv
  simp only [hph, hctr, hN, hR, hkm]
  refine ⟨i0, ?_, ?_, ?_, ?_, ?_, ?_, ?_, ?_, ?_⟩
  · intro i hi
    by_cases h : st.numParticles ≤ i ∧ i < st.numParticles + ps.length
    · omega
    · rw [if_neg h] at hi
      have := i1 i hi
      omega
  · intro i hi
    by_cases h : st.numParticles ≤ i ∧ i < st.numParticles + ps.length
    · rw [if_pos h]
      rfl
    · rw [if_neg h]
      exact i2 i (by omega)
  · intro i b hb
    by_cases h : st.numParticles ≤ i ∧ i < st.numParticles + ps.length
    · rw [if_pos h] at hb
      exact absurd hb (by simp)
    · rw [if_neg h] at hb
      exact i3 i b hb
  · intro i hf
    by_cases h : st.numParticles ≤ i ∧ i < st.numParticles + ps.length
    · rw [if_pos h]
    · rw [if_neg h] at hf
      rw [if_neg h]
      exact i4 i hf
  · intro i hs hnf
    by_cases h : st.numParticles ≤ i ∧ i < st.numParticles + ps.length
    · rw [if_pos h] at hnf
      exact absurd rfl hnf
    · rw [if_neg h] at hs hnf
      rw [if_neg h]
      exact i5 i hs hnf
  · intro i j hgi hgj hij
    by_cases h1 : st.numParticles ≤ i ∧ i < st.numParticles + ps.length
    · rw [if_pos h1] at hgi
      exact absurd hgi (by simp)
    · by_cases h2 : st.numParticles ≤ j ∧ j < st.numParticles + ps.length
      · rw [if_pos h2] at hgj
        exact absurd hgj (by simp)
      · rw [if_neg h1] at hgi
        rw [if_neg h2] at hgj
        rw [if_neg h1, if_neg h2]
        exact i6 i j hgi hgj hij
  · intro i j b hbi hbj
    by_cases h1 : st.numParticles ≤ i ∧ i < st.numParticles + ps.length
    · rw [if_pos h1] at hbi
      exact absurd hbi (by simp)
    · by_cases h2 : st.numParticles ≤ j ∧ j < st.numParticles + ps.length
      · rw [if_pos h2] at hbj
        exact absurd hbj (by simp)
      · rw [if_neg h1] at hbi
        rw [if_neg h2] at hbj
        rw [if_neg h1, if_neg h2]
        exact i7 i j b hbi hbj
  · intro i j b b2 hbi hbj hbb
    by_cases h1 : st.numParticles ≤ i ∧ i < st.numParticles + ps.length
    · rw [if_pos h1] at hbi
      exact absurd hbi (by simp)
    · by_cases h2 : st.numParticles ≤ j ∧ j < st.numParticles + ps.length
      · rw [if_pos h2] at hbj
        exact absurd hbj (by simp)
      · rw [if_neg h1] at hbi
        rw [if_neg h2] at hbj
        rw [if_neg h1, if_neg h2]
        exact i8 i j b b2 hbi hbj hbb
  · intro i j b hgi hbj
    by_cases h1 : st.numParticles ≤ i ∧ i < st.numParticles + ps.length
    · rw [if_pos h1] at hgi
      exact absurd hgi (by simp)
    · by_cases h2 : st.numParticles ≤ j ∧ j < st.numParticles + ps.length
      · rw [if_pos h2] at hbj
        exact absurd hbj (by simp)
      · rw [if_neg h1] at hgi
        rw [if_neg h2] at hbj
        rw [if_neg h1, if_neg h2]
        exact i9 i j b hgi hbj

theorem replay_cons_success {st A : SolverArrays} {km : Nat → Option PKind}
    {op : AppendOp} (hp : applyOp st op = (A, none)) (ops : List AppendOp) :
    replay st km (op :: ops) = replay A (kindAfter st A op km) ops := by
  simp only [replay, hp]

theorem replay_cons_fail {st st' : SolverArrays} {km : Nat → Option PKind}
    {op : AppendOp} {e : SolverError} (hp : applyOp st op = (st', some e))
    (ops : List AppendOp) : replay st km (op :: ops) = none := by
  simp only [replay, hp]

/-- Replaying successful appends preserves the invariant and never lowers
the phase counter. -/
theorem phaseInv_replay (ops : List AppendOp) :
    ∀ (st : SolverArrays) (km : Nat → Option PKind), PhaseInv st km →
      ∀ (stf : SolverArrays) (kmf : Nat → Option PKind),
        replay st km ops = some (stf, kmf) →
        PhaseInv stf kmf ∧ st.solidPhaseCounter ≤ stf.solidPhaseCounter := by
  induction ops with
  | nil =>
    intro st km hinv stf kmf h
    simp only [replay, Option.some.injEq, Prod.mk.injEq] at h
    obtain ⟨h1, h2⟩ := h
    subst h1
    subst h2
    exact ⟨hinv, le_refl _⟩
  | cons op ops ih =>
    intro st km hinv stf kmf h
    cases op with
    | granulars ps m =>
      by_cases hc : st.numParticles + ps.length ≥ st.numMaxParticles
      · have hp : applyOp st (AppendOp.granulars ps m) =
            (st, some SolverError.CapacityExceeded) := by
          simp [applyOp, addGranulars, hc]
        rw [replay_cons_fail hp] at h
        exact absurd h (by simp)
      · have hsnd : (addGranulars st ps m).2 = none := by
          simp [addGranulars, hc]
        have hp : applyOp st (AppendOp.granulars ps m) =
            ((addGranulars st ps m).1, none) := by
          rw [← hsnd]
          rfl
        rw [replay_cons_success hp] at h
        obtain ⟨hfin, hmono⟩ := ih _ _ (phaseInv_addGranulars st km ps m hc hinv)
          stf kmf h
        refine ⟨hfin, le_trans ?_ hmono⟩
        have hctr : (addGranulars st ps m).1.solidPhaseCounter =
            st.solidPhaseCounter + (ps.length : Int) := by
          simp [addGranulars, hc, setDevArr_counterIncrement]
        omega
    | rigid ps refs m =>
      by_cases hc1 : st.numParticles + ps.length ≥ st.numMaxParticles
      · have hp : applyOp st (AppendOp.rigid ps refs m) =
            (st, some SolverError.CapacityExceeded) := by
          simp [applyOp, addRigidBody, hc1]
        rw [replay_cons_fail hp] at h
        exact absurd h (by simp)
      · by_cases hc2 : st.numRigidBodies + 1 ≥ st.numMaxRigidBodies
        · have hp : applyOp st (AppendOp.rigid ps refs m) =
              (st, some SolverError.CapacityExceeded) := by
            simp [applyOp, addRigidBody, hc1, hc2]
          rw [replay_cons_fail hp] at h
          exact absurd h (by simp)
        · by_cases hc3 : length2 (rigidCentroid refs) ≥
              offCenterThreshold * offCenterThreshold
          · have hp : applyOp st (AppendOp.rigid ps refs m) =
                (st, some SolverError.OffCenterReference) := by
              simp [applyOp, addRigidBody, hc1, hc2, hc3]
            rw [replay_cons_fail hp] at h
            exact absurd h (by simp)
          · have hsnd : (addRigidBody st ps refs m).2 = none := by
              simp [addRigidBody, hc1, hc2, hc3]
            have hp : applyOp st (AppendOp.rigid ps refs m) =
                ((addRigidBody st ps refs m).1, none) := by
              rw [← hsnd]
              rfl
            rw [replay_cons_success hp] at h
            obtain ⟨hfin, hmono⟩ := ih _ _
              (phaseInv_addRigidBody st km ps refs m hc1 hc2 hc3 hinv) stf kmf h
            refine ⟨hfin, le_trans ?_ hmono⟩
            have hctr : (addRigidBody st ps refs m).1.solidPhaseCounter =
                st.solidPhaseCounter + 1 := by
              simp [addRigidBody, hc1, hc2, hc3]
            omega
    | fluids ps m =>
      by_cases hc : st.numParticles + ps.length ≥ st.numMaxParticles
      · have hp : applyOp st (AppendOp.fluids ps m) =
            (st, some SolverError.CapacityExceeded) := by
          simp [applyOp, addFluids, hc]
        rw [replay_cons_fail hp] at h
        exact absurd h (by simp)
      · have hsnd : (addFluids st ps m).2 = none := by
          simp [addFluids, hc]
        have hp : applyOp st (AppendOp.fluids ps m) =
            ((addFluids st ps m).1, none) := by
          rw [← hsnd]
          rfl
        rw [replay_cons_success hp] at h
        obtain ⟨hfin, hmono⟩ := ih _ _ (phaseInv_addFluids st km ps m hc hinv)
          stf kmf h
        refine ⟨hfin, le_trans ?_ hmono⟩
        have hctr : (addFluids st ps m).1.solidPhaseCounter =
            st.solidPhaseCounter := by
          simp [addFluids, hc]
        omega

/-- C8: after any sequence of successful append calls from the constructed
solver state, phase assignment is a partition — fluids have phase −1,
granulars carry fresh positive pairwise-distinct phases, each rigid body's
particles share one positive phase used by no other body and no granular —
and the solid phase counter never decreases under any append call. -/
theorem C8_phase_partition :
    (∀ (maxP maxR : Nat) (ops : List AppendOp) (stf : SolverArrays)
        (kmf : Nat → Option PKind),
      replay (initArrays maxP maxR) (fun _ => none) ops = some (stf, kmf) →
      PhaseInv stf kmf ∧
        (initArrays maxP maxR).solidPhaseCounter ≤ stf.solidPhaseCounter) ∧
    (∀ (st : SolverArrays) (op : AppendOp),
      st.solidPhaseCounter ≤ (applyOp st op).1.solidPhaseCounter) := by
  constructor
  · intro maxP maxR ops stf kmf h
    refine phaseInv_replay ops _ _ ?_ stf kmf h
    refine ⟨by norm_num [initArrays], ?_, ?_, ?_, ?_, ?_, ?_, ?_, ?_, ?_⟩
    · intro i hi
      simp at hi
    · intro i hi
      simp [initArrays] at hi
    · intro i b hb
      simp at hb
    · intro i hf
      simp at hf
    · intro i hs hnf
      simp at hs
    · intro i j hgi hgj hij
      simp at hgi
    · intro i j b hbi hbj
      simp at hbi
    · intro i j b b2 hbi hbj hbb
      simp at hbi
    · intro i j b hgi hbj
      simp at hgi
  · intro st op
    cases op with
    | granulars ps m =>
      by_cases hc : st.numParticles + ps.length ≥ st.numMaxParticles
      · simp [applyOp, addGranulars, hc]
      · have hctr : (addGranulars st ps m).1.solidPhaseCounter =
            st.solidPhaseCounter + (ps.length : Int) := by
          simp [addGranulars, hc, setDevArr_counterIncrement]
        show st.solidPhaseCounter ≤ (addGranulars st ps m).1.solidPhaseCounter
        omega
    | rigid ps refs m =>
      by_cases hc1 : st.numParticles + ps.length ≥ st.numMaxParticles
      · simp [applyOp, addRigidBody, hc1]
      · by_cases hc2 : st.numRigidBodies + 1 ≥ st.numMaxRigidBodies
        · simp [applyOp, addRigidBody, hc1, hc2]
        · by_cases hc3 : length2 (rigidCentroid refs) ≥
              offCenterThreshold * offCenterThreshold
          · simp [applyOp, addRigidBody, hc1, hc2, hc3]
          · have hctr : (addRigidBody st ps refs m).1.solidPhaseCounter =
                st.solidPhaseCounter + 1 := by
              simp [addRigidBody, hc1, hc2, hc3]
            show st.solidPhaseCounter ≤ (addRigidBody st ps refs m).1.solidPhaseCounter
            omega
    | fluids ps m =>
      by_cases hc : st.numParticles + ps.length ≥ st.numMaxParticles
      · simp [applyOp, addFluids, hc]
      · have hctr : (addFluids st ps m).1.solidPhaseCounter =
            st.solidPhaseCounter := by
          simp [addFluids, hc]
        show st.solidPhaseCounter ≤ (addFluids st ps m).1.solidPhaseCounter
        omega

/-- Witness for C8: replaying one concrete fluid append from the
constructed state discharges the replay hypothesis by `rfl`, and the
invariant yields a positive phase counter in the resulting state. -/
theorem C8_phase_partition_witness :
    0 < ((addFluids (initArrays 8 4) [(⟨0, 0, 0⟩ : Vec3)] 1).1).solidPhaseCounter :=
  (C8_phase_partition.1 8 4 [AppendOp.fluids [⟨0, 0, 0⟩] 1]
    (addFluids (initArrays 8 4) [⟨0, 0, 0⟩] 1).1
    (kindAfter (initArrays 8 4) (addFluids (initArrays 8 4) [⟨0, 0, 0⟩] 1).1
      (AppendOp.fluids [⟨0, 0, 0⟩] 1) (fun _ => none))
    rfl).1.1

end BrassTower
